import Mathlib

/-!
Verification of the arc-language/core-builder IR construction library.

The development shallowly embeds the library's Go source:
* the type system (`types/types.go`) as the inductive `Ty` with `Ty.equal`
  (the per-variant `Equal` methods) and `Ty.render` (the `String` methods);
* the value model (`ir/ir.go`) as the inductive `Value` with the printer
  helper `formatOp` (instruction file, `formatOp`);
* instructions: the shared base (`BaseInstruction`) is split into the
  generic record `Inst` (opcode, name, and an `id` field standing for the
  object identity that Go pointer comparison observes) used for block
  sequencing, and per-opcode records (`BinaryInst`, `CallInst`,
  `SwitchInst`) carrying the opcode-specific payload;
* the builder (`builder/builder.go`) as the record `Builder` with
  `Builder.insert`, `Builder.setInsertPointBefore`, `Builder.generateName`
  and the `create*` constructors; the Go panic on a missing insertion
  block is modelled by `Except.error`;
* CFG adjacency (predecessor/successor lists of `BasicBlock`) as the
  record `CFG` keyed by block ids, with `CFG.addEdge` embedding the two
  append lines that `CreateBr`/`CreateCondBr`/`CreateSwitch`/`AddCase`
  perform per edge.
-/

namespace CoreBuilder

/-- Type categories, from `types/types.go` (`TypeKind`). -/
inductive TypeKind where
  | voidKind
  | integerKind
  | floatKind
  | pointerKind
  | arrayKind
  | structKind
  | functionKind
  | vectorKind
  | labelKind
deriving DecidableEq, Repr

/-- The closed set of IR types, from `types/types.go`: `VoidType`, `IntType`,
`FloatType`, `PointerType`, `ArrayType`, `StructType`, `FunctionType`,
`VectorType`, `LabelType`. -/
inductive Ty where
  | void
  | int (bitWidth : Nat) (signed : Bool)
  | float (bitWidth : Nat)
  | ptr (elementType : Ty) (addressSpace : Int)
  | array (elementType : Ty) (length : Int)
  | struct (name : String) (fields : List Ty) (packed : Bool)
  | func (returnType : Ty) (paramTypes : List Ty) (variadic : Bool)
  | vector (elementType : Ty) (length : Nat) (scalable : Bool)
  | label
deriving Repr

/-- `Kind()` of each type variant, from `types/types.go`. -/
def Ty.kind : Ty → TypeKind
  | .void => .voidKind
  | .int _ _ => .integerKind
  | .float _ => .floatKind
  | .ptr _ _ => .pointerKind
  | .array _ _ => .arrayKind
  | .struct _ _ _ => .structKind
  | .func _ _ _ => .functionKind
  | .vector _ _ _ => .vectorKind
  | .label => .labelKind

mutual

/-- The per-variant `Equal` methods of `types/types.go`.  `VoidType.Equal` and
`LabelType.Equal` compare kinds; the composite variants compare their
constituents recursively; `StructType.Equal` (types.go:164-180) compares by
name alone when both names are non-empty, and structurally (field lists and
packed flag) otherwise. -/
def Ty.equal : Ty → Ty → Bool
  | .void, o => o.kind == TypeKind.voidKind
  | .int w s, o =>
    match o with
    | .int w2 s2 => w == w2 && s == s2
    | _ => false
  | .float w, o =>
    match o with
    | .float w2 => w == w2
    | _ => false
  | .ptr e a, o =>
    match o with
    | .ptr e2 a2 => Ty.equal e e2 && a == a2
    | _ => false
  | .array e l, o =>
    match o with
    | .array e2 l2 => l == l2 && Ty.equal e e2
    | _ => false
  | .struct n f p, o =>
    match o with
    | .struct n2 f2 p2 =>
      if n != "" && n2 != "" then n == n2
      else if f.length != f2.length then false
      else Ty.equalList f f2 && p == p2
    | _ => false
  | .func r ps v, o =>
    match o with
    | .func r2 ps2 v2 =>
      if !(Ty.equal r r2) || v != v2 then false
      else if ps.length != ps2.length then false
      else Ty.equalList ps ps2
    | _ => false
  | .vector e l s, o =>
    match o with
    | .vector e2 l2 s2 => l == l2 && s == s2 && Ty.equal e e2
    | _ => false
  | .label, o => o.kind == TypeKind.labelKind

/-- The element-wise comparison loops of `StructType.Equal` and
`FunctionType.Equal`; only reached behind an equal-length check, mirroring
the indexed Go loops. -/
def Ty.equalList : List Ty → List Ty → Bool
  | [], [] => true
  | a :: as, b :: bs => Ty.equal a b && Ty.equalList as bs
  | _, _ => false

end

mutual

/-- The per-variant `String()` methods of `types/types.go`.  Literal braces
of the anonymous-struct syntax are written with `\x7b`/`\x7d` escapes. -/
def Ty.render : Ty → String
  | .void => "void"
  | .int w s => (if s then "i" else "u") ++ toString w
  | .float w =>
    if w == 16 then "f16"
    else if w == 32 then "f32"
    else if w == 64 then "f64"
    else if w == 128 then "f128"
    else "f" ++ toString w
  | .ptr e a =>
    if a != 0 then "ptr<" ++ Ty.render e ++ ", " ++ toString a ++ ">"
    else "ptr<" ++ Ty.render e ++ ">"
  | .array e l => "[" ++ toString l ++ " x " ++ Ty.render e ++ "]"
  | .struct n f p =>
    if n != "" then "%" ++ n
    else
      (if p then "<\x7b " else "\x7b ") ++
        String.intercalate ", " (Ty.renderList f) ++
        (if p then " \x7d>" else " \x7d")
  | .func r ps v =>
    "fn(" ++ String.intercalate ", " (Ty.renderList ps ++ if v then ["..."] else []) ++
      ") -> " ++ Ty.render r
  | .vector e l s =>
    if s then "<vscale x " ++ toString l ++ " x " ++ Ty.render e ++ ">"
    else "<" ++ toString l ++ " x " ++ Ty.render e ++ ">"
  | .label => "label"

/-- Rendering of a type list, used by the struct and function cases. -/
def Ty.renderList : List Ty → List String
  | [] => []
  | t :: ts => Ty.render t :: Ty.renderList ts

end

/-- Operand values, from `ir/ir.go`.  `constantInt`, `constantNull`,
`constantUndef` and `argument` mirror the constants and `Argument` that the
printer helper `formatOp` inspects specially; `constantFloat` abstracts the
`float64` payload by its `%g` rendering (no claim touches float values);
every other `Value` variant of the source (instructions used as operands,
globals, aggregate constants) falls into `formatOp`'s name-reference
fallback and is represented by `namedValue` carrying the type and display
name that branch reads. -/
inductive Value where
  | constantInt (valType : Ty) (value : Int)
  | constantFloat (valType : Ty) (rendered : String)
  | constantNull (valType : Ty)
  | constantUndef (valType : Ty)
  | argument (valType : Ty) (valName : String) (index : Nat)
  | namedValue (valType : Ty) (valName : String)
deriving Repr

/-- `Type()` of a value (`BaseValue.Type`). -/
def Value.type : Value → Ty
  | .constantInt t _ => t
  | .constantFloat t _ => t
  | .constantNull t => t
  | .constantUndef t => t
  | .argument t _ _ => t
  | .namedValue t _ => t

/-- `Name()` of a value (`BaseValue.Name`); constants are created with an
empty display name (`ConstInt` and friends set only the type). -/
def Value.name : Value → String
  | .constantInt _ _ => ""
  | .constantFloat _ _ => ""
  | .constantNull _ => ""
  | .constantUndef _ => ""
  | .argument _ n _ => n
  | .namedValue _ n => n

/-- The operand formatter `formatOp` of the instruction file (part_000):
a nil value prints as `void`, integer/float constants print inline by
literal, null/undef by keyword, arguments by name or positional index, and
any other value by `%<name>` reference (or `%<unnamed>` when nameless). -/
def formatOp : Option Value → String
  | none => "void"
  | some (.constantInt _ v) => toString v
  | some (.constantFloat _ r) => r
  | some (.constantNull _) => "null"
  | some (.constantUndef _) => "undef"
  | some (.argument _ n idx) => if n != "" then "%" ++ n else "%" ++ toString idx
  | some v => if v.name = "" then "%<unnamed>" else "%" ++ v.name

/-- Opcodes, from `ir/ir.go`. -/
inductive Opcode where
  | ret | br | condBr | switch | unreachable
  | add | sub | mul | udiv | sdiv | urem | srem
  | fadd | fsub | fmul | fdiv | frem
  | shl | lshr | ashr | and | or | xor
  | alloca | load | store | getElementPtr
  | trunc | zext | sext | fptrunc | fpext
  | fptoui | fptosi | uitofp | sitofp
  | ptrtoint | inttoptr | bitcast
  | icmp | fcmp | phi | select | call
  | extractValue | insertValue
deriving DecidableEq, Repr

/-- `opcodeNames` / `Opcode.String` of `ir/ir.go`; both branch opcodes print
as `br`. -/
def Opcode.render : Opcode → String
  | .ret => "ret"
  | .br => "br"
  | .condBr => "br"
  | .switch => "switch"
  | .unreachable => "unreachable"
  | .add => "add"
  | .sub => "sub"
  | .mul => "mul"
  | .udiv => "udiv"
  | .sdiv => "sdiv"
  | .urem => "urem"
  | .srem => "srem"
  | .fadd => "fadd"
  | .fsub => "fsub"
  | .fmul => "fmul"
  | .fdiv => "fdiv"
  | .frem => "frem"
  | .shl => "shl"
  | .lshr => "lshr"
  | .ashr => "ashr"
  | .and => "and"
  | .or => "or"
  | .xor => "xor"
  | .alloca => "alloca"
  | .load => "load"
  | .store => "store"
  | .getElementPtr => "getelementptr"
  | .trunc => "trunc"
  | .zext => "zext"
  | .sext => "sext"
  | .fptrunc => "fptrunc"
  | .fpext => "fpext"
  | .fptoui => "fptoui"
  | .fptosi => "fptosi"
  | .uitofp => "uitofp"
  | .sitofp => "sitofp"
  | .ptrtoint => "ptrtoint"
  | .inttoptr => "inttoptr"
  | .bitcast => "bitcast"
  | .icmp => "icmp"
  | .fcmp => "fcmp"
  | .phi => "phi"
  | .select => "select"
  | .call => "call"
  | .extractValue => "extractvalue"
  | .insertValue => "insertvalue"

/-- The face of `BaseInstruction` that block sequencing observes: opcode and
result name, plus an `id` standing for the object identity that Go pointer
comparison (`in == inst` in `SetInsertPointBefore`) distinguishes.  The
operand list and type of `BaseInstruction` are carried by the per-opcode
records (`BinaryInst`, `CallInst`, `SwitchInst`) below. -/
structure Inst where
  op : Opcode
  valName : String := ""
  id : Nat := 0
deriving DecidableEq, Repr

/-- `BaseInstruction.IsTerminator` (ir.go:242-248): membership of the opcode
in the fixed terminator set. -/
def Inst.isTerminator (i : Inst) : Bool :=
  match i.op with
  | .ret | .br | .condBr | .switch | .unreachable => true
  | _ => false

/-- A basic block's name and ordered instruction sequence
(`BasicBlock` of `ir/ir.go`); the predecessor/successor adjacency lists are
modelled separately by `CFG`, keyed by block ids, because they are mutual
cross-references between blocks. -/
structure BasicBlock where
  valName : String := ""
  instructions : List Inst := []
deriving Repr

/-- `BasicBlock.Terminator` (ir.go:440-449): the last instruction when the
block is non-empty and that instruction is classified a terminator, nil
otherwise. -/
def BasicBlock.terminator (b : BasicBlock) : Option Inst :=
  match b.instructions.getLast? with
  | none => none
  | some last => if last.isTerminator then some last else none

/-- `BaseInstruction.SetOperand` (ir.go:235-241): grow the operand slice
with nil placeholders until the index is in range, then store the value
there.  A nil operand slot is `none`. -/
def BaseInstruction.setOperand (ops : List (Option Value)) (idx : Nat) (v : Value) :
    List (Option Value) :=
  let grown := ops ++ List.replicate (idx + 1 - ops.length) none
  grown.set idx (some v)

/-- The `for i, arg := range args` loops of `CreateCall`/`CreateGEP`, which
issue `SetOperand(i, arg)` for consecutive indices starting at `i`. -/
def setOperands (ops : List (Option Value)) (i : Nat) : List Value → List (Option Value)
  | [] => ops
  | a :: rest => setOperands (BaseInstruction.setOperand ops i a) (i + 1) rest

/-- `BinaryInst` of the instruction file: the base fields plus the wrap and
exactness flags (the source field `Exact` is spelled `exactFlag` here). -/
structure BinaryInst where
  valName : String := ""
  valType : Option Ty := none
  ops : List (Option Value) := []
  op : Opcode
  noSignedWrap : Bool := false
  noUnsignedWrap : Bool := false
  exactFlag : Bool := false
deriving Repr

/-- The type annotation that `BinaryInst.String` prints from `lhs.Type()`;
a nil operand would fault in the source printer, so that case is mapped to
an empty marker never exercised by built instructions. -/
def operandTypeString (v : Option Value) : String :=
  match v with
  | some v => v.type.render
  | none => ""

/-- `BinaryInst.String` of part_000 (lines 118-135): the canonical printer,
which renders constant operands inline through `formatOp`
(`%name = op[ nuw][ nsw][ exact] <type> <lhs>, <rhs>`). -/
def BinaryInst.render (i : BinaryInst) : String :=
  let flags :=
    (if i.noUnsignedWrap then " nuw" else "") ++
    (if i.noSignedWrap then " nsw" else "") ++
    (if i.exactFlag then " exact" else "")
  let lhs := i.ops.getD 0 none
  let rhs := i.ops.getD 1 none
  "%" ++ i.valName ++ " = " ++ i.op.render ++ flags ++ " " ++
    operandTypeString lhs ++ " " ++ formatOp lhs ++ ", " ++ formatOp rhs

/-- The display name that the part_001 printer reads from an operand
(`lhs.Name()`); a nil operand would fault there as it does in part_000. -/
def operandNameString (v : Option Value) : String :=
  match v with
  | some v => v.name
  | none => ""

/-- `BinaryInst.String` of part_001 (lines 88-105): the divergent duplicate
printer, which renders every operand by `%<name>` reference, constants
included.  Superseded by the canonical part_000 policy (spec section 6). -/
def BinaryInst.renderByName (i : BinaryInst) : String :=
  let flags :=
    (if i.noUnsignedWrap then " nuw" else "") ++
    (if i.noSignedWrap then " nsw" else "") ++
    (if i.exactFlag then " exact" else "")
  let lhs := i.ops.getD 0 none
  let rhs := i.ops.getD 1 none
  "%" ++ i.valName ++ " = " ++ i.op.render ++ flags ++ " " ++
    operandTypeString lhs ++ " %" ++ operandNameString lhs ++
    ", %" ++ operandNameString rhs

/-- `CallInst` of part_000: base fields plus a direct callee (`Callee`,
represented by the called function's name when present), a bare callee name
(`CalleeName`) and the tail-call flag.  `valType` is an `Option` because the
declared return type can be absent (nil) in the source. -/
structure CallInst where
  valName : String := ""
  valType : Option Ty := none
  ops : List (Option Value) := []
  op : Opcode := Opcode.call
  callee : Option String := none
  calleeName : String := ""
  isTailCall : Bool := false
deriving Repr

/-- The callee-name resolution inside `CallInst.String`: the direct callee's
name wins over the bare `CalleeName` field. -/
def CallInst.calleeString (i : CallInst) : String :=
  match i.callee with
  | some n => n
  | none => i.calleeName

/-- The argument list rendering inside `CallInst.String`: nil operands are
skipped, each argument prints as `<type> <operand>`, comma-joined. -/
def CallInst.argsString (i : CallInst) : String :=
  String.intercalate ", "
    (i.ops.filterMap fun a =>
      match a with
      | some v => some (v.type.render ++ " " ++ formatOp (some v))
      | none => none)

/-- `CallInst.String` of part_000 (lines 309-333): a nil or void declared
return type is rendered without an assigned result name
(`[tail ]call void @callee(args)`); otherwise the call is rendered with the
`%name = ` prefix. -/
def CallInst.render (i : CallInst) : String :=
  let tail := if i.isTailCall then "tail " else ""
  match i.valType with
  | none => tail ++ "call void @" ++ i.calleeString ++ "(" ++ i.argsString ++ ")"
  | some t =>
    if t.kind == TypeKind.voidKind then
      tail ++ "call void @" ++ i.calleeString ++ "(" ++ i.argsString ++ ")"
    else
      "%" ++ i.valName ++ " = " ++ tail ++ "call " ++ t.render ++ " @" ++
        i.calleeString ++ "(" ++ i.argsString ++ ")"

/-- A switch case (`SwitchCase`): the `ConstantInt` case value and the
target block's id. -/
structure SwitchCase where
  value : Int
  block : Nat
deriving DecidableEq, Repr

/-- `SwitchInst`: its accumulated case list and its parent block
(`BaseInstruction.Parent_`, by id; `none` while the switch has not been
inserted into any block). -/
structure SwitchInst where
  cases : List SwitchCase := []
  parent : Option Nat := none
deriving Repr

/-- The predecessor/successor adjacency lists of all basic blocks
(`BasicBlock.Predecessors` / `BasicBlock.Successors`), keyed by block id;
mutual block cross-references are represented by ids, as handles into the
function's block arena. -/
structure CFG where
  preds : Nat → List Nat
  succs : Nat → List Nat

/-- One CFG edge update of the builder — the two append lines
`source.Successors = append(source.Successors, target)` and
`target.Predecessors = append(target.Predecessors, source)` performed by
`CreateBr` (builder.go:213-214), per target by `CreateCondBr`
(builder.go:228-230), by `CreateSwitch` for the default block, and by
`AddCase` when the switch has a parent (builder.go:254-255). -/
def CFG.addEdge (g : CFG) (source target : Nat) : CFG :=
  { succs := fun b => if b = source then g.succs b ++ [target] else g.succs b,
    preds := fun b => if b = target then g.preds b ++ [source] else g.preds b }

/-- N repetitions of the same branch/case edge update from `source` into
`target`, modelling N branch constructions issued from one block to one
target. -/
def CFG.addEdgeN (g : CFG) (source target : Nat) : Nat → CFG
  | 0 => g
  | n + 1 => (g.addEdgeN source target n).addEdge source target

/-- `Builder.AddCase` (builder.go:249-257): append the case to the switch's
case list; update the CFG adjacency only when the switch's parent block is
non-nil. -/
def Builder.addCase (sw : SwitchInst) (val : Int) (block : Nat) (g : CFG) :
    SwitchInst × CFG :=
  let sw := { sw with cases := sw.cases ++ [SwitchCase.mk val block] }
  match sw.parent with
  | none => (sw, g)
  | some parent => (sw, g.addEdge parent block)

/-- The builder state (`Builder` of `builder/builder.go`): the current
block's instruction sequence (none when no insertion block is set), the
insertion cursor (`insertPoint`, −1 meaning append to the end) and the
automatic-naming counter.  The module and current-function fields play no
role in the claims about insertion, naming and printing. -/
structure Builder where
  currentBlock : Option (List Inst) := none
  insertPoint : Int := -1
  nameCounter : Int := 0
deriving Repr

/-- `New()` (builder.go:22-26): no insertion block, append mode, counter at
its zero value. -/
def Builder.new : Builder :=
  { currentBlock := none, insertPoint := -1, nameCounter := 0 }

/-- `Builder.generateName` (builder.go:81-85): the decimal rendering of the
counter, which is then incremented. -/
def Builder.generateName (b : Builder) : String × Builder :=
  (toString b.nameCounter, { b with nameCounter := b.nameCounter + 1 })

/-- `Builder.insert` (builder.go:88-105): with no insertion block set the
source panics ("no insertion block set"), modelled as `Except.error`; in
append mode (`insertPoint < 0`) the instruction is appended; in positional
mode it is placed at the cursor index and the cursor advances by one.  (The
source's copy-based splice assumes the cursor is at most the block length,
which every reachable builder state satisfies.) -/
def Builder.insert (b : Builder) (inst : Inst) : Except String Builder :=
  match b.currentBlock with
  | none => Except.error "no insertion block set"
  | some insts =>
    if b.insertPoint < 0 then
      Except.ok { b with currentBlock := some (insts ++ [inst]) }
    else
      Except.ok { b with
        currentBlock := some
          (insts.take b.insertPoint.toNat ++ inst :: insts.drop b.insertPoint.toNat),
        insertPoint := b.insertPoint + 1 }

/-- `Builder.SetInsertPointBefore` (builder.go:65-73): make the
instruction's parent block current, then scan it for the instruction (by
object identity) and point the cursor at its index; if the instruction is
not found the cursor keeps its previous value, as in the source. -/
def Builder.setInsertPointBefore (b : Builder) (parentInsts : List Inst) (inst : Inst) :
    Builder :=
  let b := { b with currentBlock := some parentInsts }
  match parentInsts.findIdx? (· == inst) with
  | some i => { b with insertPoint := (i : Int) }
  | none => b

/-- `Builder.createBinaryOp` (builder.go:271-284): auto-name when no name is
given, set both operands, take the result type from the left operand, and
insert.  The block sequence records the instruction's generic face; the full
`BinaryInst` payload is returned to the caller. -/
def Builder.createBinaryOp (b : Builder) (op : Opcode) (lhs rhs : Value) (name : String) :
    Except String (BinaryInst × Builder) :=
  let (name, b) := if name = "" then b.generateName else (name, b)
  let inst : BinaryInst :=
    { valName := name, op := op,
      ops := BaseInstruction.setOperand (BaseInstruction.setOperand [] 0 lhs) 1 rhs,
      valType := some lhs.type }
  match b.insert { op := op, valName := name } with
  | Except.error e => Except.error e
  | Except.ok b => Except.ok (inst, b)

/-- `Builder.CreateAdd` (builder.go:287-289). -/
def Builder.createAdd (b : Builder) (lhs rhs : Value) (name : String) :
    Except String (BinaryInst × Builder) :=
  b.createBinaryOp Opcode.add lhs rhs name

/-- `Builder.CreateRet` (builder.go:189-197). -/
def Builder.createRet (b : Builder) (v : Option Value) : Except String (Inst × Builder) :=
  let inst : Inst := { op := Opcode.ret }
  match b.insert inst with
  | Except.error e => Except.error e
  | Except.ok b => Except.ok (inst, b)

/-- `Builder.CreateBr` (builder.go:208-216): insert the branch; the CFG
edge update it then performs is `CFG.addEdge` from the current block to the
target. -/
def Builder.createBr (b : Builder) (target : Nat) : Except String (Inst × Builder) :=
  let inst : Inst := { op := Opcode.br }
  match b.insert inst with
  | Except.error e => Except.error e
  | Except.ok b => Except.ok (inst, b)

/-- `Builder.CreateLoad` (builder.go:448-459): auto-name, typed by the
loaded type, operand 0 the pointer. -/
def Builder.createLoad (b : Builder) (typ : Ty) (ptr : Value) (name : String) :
    Except String (Inst × Builder) :=
  let (name, b) := if name = "" then b.generateName else (name, b)
  match b.insert { op := Opcode.load, valName := name } with
  | Except.error e => Except.error e
  | Except.ok b => Except.ok (({ op := Opcode.load, valName := name } : Inst), b)

/-- `Builder.CreatePhi` (builder.go:685-695). -/
def Builder.createPhi (b : Builder) (typ : Ty) (name : String) :
    Except String (Inst × Builder) :=
  let (name, b) := if name = "" then b.generateName else (name, b)
  match b.insert { op := Opcode.phi, valName := name } with
  | Except.error e => Except.error e
  | Except.ok b => Except.ok (({ op := Opcode.phi, valName := name } : Inst), b)

/-- `Builder.CreateCall` (builder.go:714-729): auto-name only when the
callee's declared return type is not void; set the arguments by consecutive
`SetOperand` calls; insert. -/
def Builder.createCall (b : Builder) (fnName : String) (retType : Ty) (args : List Value)
    (name : String) : Except String (CallInst × Builder) :=
  let (name, b) :=
    if name = "" && retType.kind != TypeKind.voidKind then b.generateName else (name, b)
  let inst : CallInst :=
    { valName := name, valType := some retType, callee := some fnName,
      ops := setOperands [] 0 args }
  match b.insert { op := Opcode.call, valName := name } with
  | Except.error e => Except.error e
  | Except.ok b => Except.ok (inst, b)

/-! ## Theorems -/

/-- The field-wise comparison loop succeeds exactly when the two lists are
element-wise `Ty.equal` (which forces equal lengths). -/
theorem Ty.equalList_iff_forall₂ (f1 f2 : List Ty) :
    Ty.equalList f1 f2 = true ↔
      List.Forall₂ (fun a b => Ty.equal a b = true) f1 f2 := by
  induction f1 generalizing f2 with
  | nil =>
    cases f2 <;> simp [Ty.equalList, List.forall₂_nil_left_iff]
  | cons a as ih =>
    cases f2 with
    | nil => simp [Ty.equalList, List.forall₂_nil_right_iff]
    | cons b bs => simp [Ty.equalList, List.forall₂_cons, ih]

/-- C1: for struct types that both carry non-empty names, `Equal` holds iff
the names are identical, regardless of the field lists and packed flags. -/
theorem struct_equal_by_name_only
    (n1 n2 : String) (f1 f2 : List Ty) (p1 p2 : Bool)
    (h1 : n1 ≠ "") (h2 : n2 ≠ "") :
    Ty.equal (Ty.struct n1 f1 p1) (Ty.struct n2 f2 p2) = true ↔ n1 = n2 := by
  simp [Ty.equal, h1, h2]

/-- C1 witness: a struct named `Point` with fields `[i32, i32]` equals a
struct named `Point` with field list `[f64]`. -/
theorem struct_equal_by_name_only_witness :
    Ty.equal (Ty.struct "Point" [Ty.int 32 true, Ty.int 32 true] false)
      (Ty.struct "Point" [Ty.float 64] false) = true :=
  (struct_equal_by_name_only "Point" "Point" [Ty.int 32 true, Ty.int 32 true]
    [Ty.float 64] false false (by decide) (by decide)).mpr rfl

/-- C10: when at least one of two struct types has an empty name, `Equal`
is decided structurally — equal field-list lengths, element-wise `Equal`
fields, and equal packed flags. -/
theorem struct_equal_structural_when_unnamed
    (n1 n2 : String) (f1 f2 : List Ty) (p1 p2 : Bool) (h : n1 = "" ∨ n2 = "") :
    Ty.equal (Ty.struct n1 f1 p1) (Ty.struct n2 f2 p2) = true ↔
      (f1.length = f2.length ∧
        List.Forall₂ (fun a b => Ty.equal a b = true) f1 f2 ∧ p1 = p2) := by
  have hcond : (n1 != "" && n2 != "") = false := by
    rcases h with h | h <;> subst h <;> simp
  by_cases hl : f1.length = f2.length
  · simp [Ty.equal, hcond, hl, Ty.equalList_iff_forall₂]
  · have hlen : ¬ List.Forall₂ (fun a b => Ty.equal a b = true) f1 f2 := by
      intro hf
      exact hl (List.Forall₂.length_eq hf)
    simp [Ty.equal, hcond, hl, hlen]

/-- C10 witness: a struct named `P` with field `[i32]` compares equal to the
anonymous struct with the same field list and packedness. -/
theorem struct_equal_structural_when_unnamed_witness :
    Ty.equal (Ty.struct "P" [Ty.int 32 true] false)
      (Ty.struct "" [Ty.int 32 true] false) = true :=
  (struct_equal_structural_when_unnamed "P" "" [Ty.int 32 true] [Ty.int 32 true]
    false false (Or.inr rfl)).mpr
    ⟨rfl, List.Forall₂.cons rfl List.Forall₂.nil, rfl⟩

/-- C3: `Terminator()` yields exactly the last instruction of a non-empty
block whose opcode is in the terminator set (return, branch, conditional
branch, switch, unreachable), and nil in every other situation — only the
last instruction is consulted. -/
theorem terminator_classification (b : BasicBlock) :
    (∀ i : Inst, b.terminator = some i ↔
      (b.instructions.getLast? = some i ∧ i.isTerminator = true)) ∧
    (∀ i : Inst, i.isTerminator = true ↔
      (i.op = Opcode.ret ∨ i.op = Opcode.br ∨ i.op = Opcode.condBr ∨
        i.op = Opcode.switch ∨ i.op = Opcode.unreachable)) := by
  constructor
  · intro i
    cases h : b.instructions.getLast? with
    | none => simp [BasicBlock.terminator, h]
    | some last =>
      by_cases ht : last.isTerminator = true
      · simp only [BasicBlock.terminator, h, ht, if_true, Option.some.injEq]
        constructor
        · rintro rfl
          exact ⟨rfl, ht⟩
        · rintro ⟨hli, _⟩
          exact hli
      · simp only [BasicBlock.terminator, h, if_neg ht]
        constructor
        · intro hcontra
          exact Option.noConfusion hcontra
        · rintro ⟨hli, hterm⟩
          cases (Option.some.injEq _ _).mp hli
          exact absurd hterm ht
  · intro i
    rcases i with ⟨op, n, id⟩
    cases op <;> simp [Inst.isTerminator]

/-- C8: `SetOperand(i, v)` at an index at or beyond the current operand
count grows the list to length `i + 1`, fills every newly created
intermediate slot with the nil placeholder, and stores `v` at index `i`;
below the current count it overwrites in place; the resulting operand count
is `max (previous length) (i + 1)` and other in-range slots are
untouched. -/
theorem setOperand_growth (ops : List (Option Value)) (idx : Nat) (v : Value) :
    (BaseInstruction.setOperand ops idx v).length = max ops.length (idx + 1) ∧
    (BaseInstruction.setOperand ops idx v)[idx]? = some (some v) ∧
    (∀ j, ops.length ≤ j → j < idx →
      (BaseInstruction.setOperand ops idx v)[j]? = some none) ∧
    (∀ j, j < ops.length → j ≠ idx →
      (BaseInstruction.setOperand ops idx v)[j]? = ops[j]?) := by
  have hlen : (ops ++ List.replicate (idx + 1 - ops.length) none).length
      = max ops.length (idx + 1) := by
    simp only [List.length_append, List.length_replicate]
    omega
  refine ⟨?_, ?_, ?_, ?_⟩
  · simp only [BaseInstruction.setOperand, List.length_set]
    exact hlen
  · have hidx : idx < (ops ++ List.replicate (idx + 1 - ops.length) none).length := by
      rw [hlen]; omega
    simp only [BaseInstruction.setOperand]
    exact List.getElem?_set_self hidx
  · intro j h1 h2
    simp only [BaseInstruction.setOperand]
    rw [List.getElem?_set_ne (by omega : idx ≠ j)]
    rw [List.getElem?_append_right h1]
    exact List.getElem?_replicate_of_lt (by omega)
  · intro j h1 h2
    simp only [BaseInstruction.setOperand]
    rw [List.getElem?_set_ne (fun he => h2 he.symm)]
    exact List.getElem?_append_left h1

/-- C8 witness: setting operand 3 of an empty operand list stores the value
at index 3 behind three nil placeholders, giving operand count 4. -/
theorem setOperand_growth_witness :
    (BaseInstruction.setOperand [] 3 (Value.constantInt (Ty.int 32 true) 7)).length
        = max 0 4 ∧
      (BaseInstruction.setOperand [] 3 (Value.constantInt (Ty.int 32 true) 7))[3]?
        = some (some (Value.constantInt (Ty.int 32 true) 7)) ∧
      (BaseInstruction.setOperand [] 3 (Value.constantInt (Ty.int 32 true) 7))[1]?
        = some none :=
  ⟨(setOperand_growth [] 3 (Value.constantInt (Ty.int 32 true) 7)).1,
   (setOperand_growth [] 3 (Value.constantInt (Ty.int 32 true) 7)).2.1,
   (setOperand_growth [] 3 (Value.constantInt (Ty.int 32 true) 7)).2.2.1 1
     (Nat.zero_le 1) (by omega)⟩

/-- Inserting through the builder fails with the fatal "no insertion block
set" error exactly when no current block is set; the error propagates
unchanged through the result-packing match every `Create*` operation
performs. -/
theorem matchInsert_error_iff {α : Type} (b : Builder) (i : Inst) (f : Builder → α) :
    (match b.insert i with
      | Except.error e => (Except.error e : Except String α)
      | Except.ok b2 => Except.ok (f b2)) = Except.error "no insertion block set" ↔
    b.currentBlock = none := by
  cases hb : b.currentBlock with
  | none => simp [Builder.insert, hb]
  | some l =>
    simp only [Builder.insert, hb]
    split
    · rename_i heq
      split at heq <;> exact Except.noConfusion heq
    · simp

/-- C6: every instruction-construction operation of the builder — `insert`
itself and the `Create*` constructors routed through it — fails with the
fatal error exactly when the builder's current insertion block is unset;
with a block set, no such fatal error arises. -/
theorem create_without_block_fatal (b : Builder) :
    (∀ i : Inst, b.insert i = Except.error "no insertion block set" ↔
      b.currentBlock = none) ∧
    (∀ lhs rhs nm, b.createAdd lhs rhs nm = Except.error "no insertion block set" ↔
      b.currentBlock = none) ∧
    (∀ v, b.createRet v = Except.error "no insertion block set" ↔
      b.currentBlock = none) ∧
    (∀ t, b.createBr t = Except.error "no insertion block set" ↔
      b.currentBlock = none) ∧
    (∀ ty ptr nm, b.createLoad ty ptr nm = Except.error "no insertion block set" ↔
      b.currentBlock = none) ∧
    (∀ ty nm, b.createPhi ty nm = Except.error "no insertion block set" ↔
      b.currentBlock = none) ∧
    (∀ fn rt args nm, b.createCall fn rt args nm
        = Except.error "no insertion block set" ↔
      b.currentBlock = none) := by
  refine ⟨?_, ?_, ?_, ?_, ?_, ?_, ?_⟩
  · intro i
    have := matchInsert_error_iff b i (fun b2 => b2)
    cases hr : b.insert i with
    | error e =>
      simp only [hr] at this
      simpa [hr] using this
    | ok b2 =>
      simp only [hr] at this
      simpa [hr] using this
  · intro lhs rhs nm
    by_cases hnm : nm = "" <;>
      simp only [Builder.createAdd, Builder.createBinaryOp, hnm, if_true, if_false,
        Builder.generateName] <;>
      exact matchInsert_error_iff _ _ _
  · intro v
    exact matchInsert_error_iff _ _ _
  · intro t
    exact matchInsert_error_iff _ _ _
  · intro ty ptr nm
    by_cases hnm : nm = "" <;>
      simp only [Builder.createLoad, hnm, if_true, if_false, Builder.generateName] <;>
      exact matchInsert_error_iff _ _ _
  · intro ty nm
    by_cases hnm : nm = "" <;>
      simp only [Builder.createPhi, hnm, if_true, if_false, Builder.generateName] <;>
      exact matchInsert_error_iff _ _ _
  · intro fn rt args nm
    by_cases hc : (nm = "" && rt.kind != TypeKind.voidKind) = true <;>
      simp only [Builder.createCall, hc, if_true, if_false, Builder.generateName] <;>
      exact matchInsert_error_iff _ _ _

/-- C5: N branch/case constructions from source `s` into target `t` append
exactly N copies of `s` to `t`'s predecessor list and N copies of `t` to
`s`'s successor list, never collapsing duplicates; in particular a switch
(with parent `src`) given two cases both targeting block `m` leaves `src`
in `m`'s predecessor list twice. -/
theorem cfg_edges_accumulate (g : CFG) (s t : Nat) (n : Nat)
    (sw : SwitchInst) (v1 v2 : Int) (m src : Nat) :
    ((g.addEdgeN s t n).preds t = g.preds t ++ List.replicate n s) ∧
    ((g.addEdgeN s t n).succs s = g.succs s ++ List.replicate n t) ∧
    (sw.parent = some src →
      (Builder.addCase (Builder.addCase sw v1 m g).1 v2 m
          (Builder.addCase sw v1 m g).2).2.preds m = g.preds m ++ [src, src]) := by
  refine ⟨?_, ?_, ?_⟩
  · induction n with
    | zero => simp [CFG.addEdgeN]
    | succ k ih =>
      simp [CFG.addEdgeN, CFG.addEdge, ih, List.replicate_succ']
  · induction n with
    | zero => simp [CFG.addEdgeN]
    | succ k ih =>
      simp [CFG.addEdgeN, CFG.addEdge, ih, List.replicate_succ']
  · intro hp
    simp [Builder.addCase, hp, CFG.addEdge]

/-- C9: `AddCase` always appends exactly the one new case to the switch's
case list (leaving its parent untouched); it updates CFG adjacency only
when the switch has a parent block — with no parent, every block's
predecessor and successor lists are left unchanged, and with parent `p`
only `block`'s predecessors and `p`'s successors grow, by one entry each. -/
theorem addCase_case_list_and_cfg_frame
    (sw : SwitchInst) (val : Int) (block : Nat) (g : CFG) :
    ((Builder.addCase sw val block g).1.cases
      = sw.cases ++ [SwitchCase.mk val block]) ∧
    ((Builder.addCase sw val block g).1.parent = sw.parent) ∧
    (sw.parent = none → (Builder.addCase sw val block g).2 = g) ∧
    (∀ p, sw.parent = some p →
      ((Builder.addCase sw val block g).2.preds block = g.preds block ++ [p]) ∧
      ((Builder.addCase sw val block g).2.succs p = g.succs p ++ [block]) ∧
      (∀ b2, b2 ≠ block → (Builder.addCase sw val block g).2.preds b2 = g.preds b2) ∧
      (∀ b2, b2 ≠ p → (Builder.addCase sw val block g).2.succs b2 = g.succs b2)) := by
  refine ⟨?_, ?_, ?_, ?_⟩
  · cases hp : sw.parent <;> simp [Builder.addCase, hp]
  · cases hp : sw.parent <;> simp [Builder.addCase, hp]
  · intro hp
    simp [Builder.addCase, hp]
  · intro p hp
    refine ⟨?_, ?_, fun b2 hb2 => ?_, fun b2 hb2 => ?_⟩
    · simp [Builder.addCase, hp, CFG.addEdge]
    · simp [Builder.addCase, hp, CFG.addEdge]
    · simp [Builder.addCase, hp, CFG.addEdge, hb2]
    · simp [Builder.addCase, hp, CFG.addEdge, hb2]

/-- The first occurrence of `X` in `l1 ++ X :: l2` is at index `l1.length`
when `X` does not occur in `l1` — what `SetInsertPointBefore`'s scan
computes. -/
theorem findIdx?_first_occurrence (l1 l2 : List Inst) (X : Inst) (h : X ∉ l1) :
    (l1 ++ X :: l2).findIdx? (· == X) = some l1.length := by
  induction l1 with
  | nil => simp
  | cons a as ih =>
    have ha : (a == X) = false := by
      rw [beq_eq_false_iff_ne]
      intro hax
      exact h (hax ▸ List.mem_cons_self a as)
    have hXas : X ∉ as := fun hm => h (List.mem_cons_of_mem a hm)
    simp [List.findIdx?_cons, ha, List.findIdx?_succ, ih hXas]

/-- Positional insertion with the cursor at `pre.length` splices the new
instruction between `pre` and `post` and advances the cursor by one. -/
theorem insert_at_position (b : Builder) (pre post : List Inst) (inst : Inst)
    (hcb : b.currentBlock = some (pre ++ post))
    (hip : b.insertPoint = (pre.length : Int)) :
    b.insert inst = Except.ok { b with
      currentBlock := some (pre ++ inst :: post),
      insertPoint := (pre.length : Int) + 1 } := by
  simp only [Builder.insert, hcb, hip, Int.toNat_ofNat, List.take_left,
    List.drop_left]
  rw [if_neg (by omega : ¬ ((pre.length : Int) < 0))]

/-- C4: with the cursor set immediately before an existing instruction X
(first occurrence), inserting A and then B places them in issue order
directly before X — the block order becomes `..., A, B, X, ...` and the
cursor ends up two positions past where it started. -/
theorem insert_before_ordering (b : Builder) (l1 l2 : List Inst) (X A B : Inst)
    (hX : X ∉ l1) :
    ∃ b2 b3,
      (b.setInsertPointBefore (l1 ++ X :: l2) X).insert A = Except.ok b2 ∧
      b2.insert B = Except.ok b3 ∧
      b3.currentBlock = some (l1 ++ A :: B :: X :: l2) ∧
      b3.insertPoint = (l1.length : Int) + 2 := by
  have hb1 : b.setInsertPointBefore (l1 ++ X :: l2) X
      = Builder.mk (some (l1 ++ X :: l2)) (l1.length : Int) b.nameCounter := by
    simp [Builder.setInsertPointBefore, findIdx?_first_occurrence l1 l2 X hX]
  have h1 := insert_at_position
    (Builder.mk (some (l1 ++ X :: l2)) (l1.length : Int) b.nameCounter)
    l1 (X :: l2) A rfl rfl
  have h2 := insert_at_position
    (Builder.mk (some (l1 ++ A :: X :: l2)) ((l1.length : Int) + 1) b.nameCounter)
    (l1 ++ [A]) (X :: l2) B (by simp) (by simp)
  refine ⟨Builder.mk (some (l1 ++ A :: X :: l2)) ((l1.length : Int) + 1) b.nameCounter,
    Builder.mk (some ((l1 ++ [A]) ++ B :: X :: l2)) (((l1 ++ [A]).length : Int) + 1)
      b.nameCounter, ?_, ?_, ?_, ?_⟩
  · rw [hb1]
    exact h1
  · exact h2
  · simp
  · simp only [List.length_append, List.length_cons, List.length_nil]
    push_cast
    ring

/-- C4 witness: in a block holding just X, pointing the cursor before X and
inserting A then B yields the order `[A, B, X]` with the cursor advanced
past both insertions. -/
theorem insert_before_ordering_witness :
    ∃ b2 b3,
      (Builder.new.setInsertPointBefore [Inst.mk Opcode.ret "" 1]
          (Inst.mk Opcode.ret "" 1)).insert (Inst.mk Opcode.add "a" 2)
        = Except.ok b2 ∧
      b2.insert (Inst.mk Opcode.add "b" 3) = Except.ok b3 ∧
      b3.currentBlock = some [Inst.mk Opcode.add "a" 2, Inst.mk Opcode.add "b" 3,
        Inst.mk Opcode.ret "" 1] ∧
      b3.insertPoint = 2 := by
  have h := insert_before_ordering Builder.new [] [] (Inst.mk Opcode.ret "" 1)
    (Inst.mk Opcode.add "a" 2) (Inst.mk Opcode.add "b" 3) (by decide)
  simpa using h

/-- C2: in a builder whose naming counter is at 0 with a current block set,
creating an i32 add of the constants 2 and 3 with no explicit name assigns
the auto-generated name "0", and the canonical printer renders the
instruction exactly as `%0 = add i32 2, 3` — the constant operands are
inlined by literal value, not referenced by `%`-name. -/
theorem fresh_builder_add_prints (b : Builder) (l : List Inst)
    (h0 : b.nameCounter = 0) (hb : b.currentBlock = some l) :
    ∃ inst b2,
      b.createAdd (Value.constantInt (Ty.int 32 true) 2)
          (Value.constantInt (Ty.int 32 true) 3) "" = Except.ok (inst, b2) ∧
      inst.valName = "0" ∧
      inst.render = "%0 = add i32 2, 3" := by
  rcases b with ⟨cb, ip, nc⟩
  simp only at h0 hb
  subst h0
  subst hb
  by_cases hip : ip < 0
  · refine ⟨BinaryInst.mk "0" (some (Ty.int 32 true))
      [some (Value.constantInt (Ty.int 32 true) 2),
        some (Value.constantInt (Ty.int 32 true) 3)]
      Opcode.add false false false,
      Builder.mk (some (l ++ [Inst.mk Opcode.add "0" 0])) ip 1, ?_, rfl, rfl⟩
    simp [Builder.createAdd, Builder.createBinaryOp, Builder.generateName,
      Builder.insert, hip, BaseInstruction.setOperand, Value.type]
    exact rfl
  · refine ⟨BinaryInst.mk "0" (some (Ty.int 32 true))
      [some (Value.constantInt (Ty.int 32 true) 2),
        some (Value.constantInt (Ty.int 32 true) 3)]
      Opcode.add false false false,
      Builder.mk (some (l.take ip.toNat ++ Inst.mk Opcode.add "0" 0 :: l.drop ip.toNat))
        (ip + 1) 1, ?_, rfl, rfl⟩
    simp [Builder.createAdd, Builder.createBinaryOp, Builder.generateName,
      Builder.insert, hip, BaseInstruction.setOperand, Value.type]
    exact rfl

/-- C2 witness: the concrete scenario in a fresh builder whose current
block is empty. -/
theorem fresh_builder_add_prints_witness :
    ∃ inst b2,
      (Builder.mk (some []) (-1) 0).createAdd (Value.constantInt (Ty.int 32 true) 2)
          (Value.constantInt (Ty.int 32 true) 3) "" = Except.ok (inst, b2) ∧
      inst.valName = "0" ∧
      inst.render = "%0 = add i32 2, 3" :=
  fresh_builder_add_prints (Builder.mk (some []) (-1) 0) [] rfl rfl

/-- C7: a call instruction whose declared return type is nil or the void
type is rendered without an assigned result name, as
`[tail ]call void @<callee>(<args>)`, while a call with a non-void declared
return type is rendered with the `%name = ` prefix; in particular a call to
a void function `f` with no arguments built through `CreateCall` stays
nameless and prints exactly `call void @f()`. -/
theorem void_call_prints_without_result_name (c : CallInst) :
    ((c.valType = none ∨ (∃ t, c.valType = some t ∧ t.kind = TypeKind.voidKind)) →
      c.render = (if c.isTailCall then "tail " else "") ++ "call void @" ++
        c.calleeString ++ "(" ++ c.argsString ++ ")") ∧
    (∀ t, c.valType = some t → t.kind ≠ TypeKind.voidKind →
      c.render = "%" ++ c.valName ++ " = " ++
        (if c.isTailCall then "tail " else "") ++ "call " ++ t.render ++ " @" ++
        c.calleeString ++ "(" ++ c.argsString ++ ")") ∧
    (∀ b l, (b : Builder).currentBlock = some l →
      ∃ c2 b2, b.createCall "f" Ty.void [] "" = Except.ok (c2, b2) ∧
        c2.valName = "" ∧ c2.render = "call void @f()") := by
  refine ⟨?_, ?_, ?_⟩
  · rintro (hv | ⟨t, hv, hk⟩)
    · simp [CallInst.render, hv]
    · simp [CallInst.render, hv, hk]
  · intro t hv hk
    simp [CallInst.render, hv, hk]
  · intro b l hb
    rcases b with ⟨cb, ip, nc⟩
    simp only at hb
    subst hb
    by_cases hip : ip < 0
    · refine ⟨CallInst.mk "" (some Ty.void) [] Opcode.call (some "f") "" false,
        Builder.mk (some (l ++ [Inst.mk Opcode.call "" 0])) ip nc, ?_, rfl, rfl⟩
      simp [Builder.createCall, Builder.generateName, Builder.insert, hip,
        setOperands, Ty.kind]
    · refine ⟨CallInst.mk "" (some Ty.void) [] Opcode.call (some "f") "" false,
        Builder.mk (some (l.take ip.toNat ++ Inst.mk Opcode.call "" 0 :: l.drop ip.toNat))
          (ip + 1) nc, ?_, rfl, rfl⟩
      simp [Builder.createCall, Builder.generateName, Builder.insert, hip,
        setOperands, Ty.kind]

end CoreBuilder
